import Mathlib

/-
  Verification development for the cursor-mcp-manager repository.

  The development shallowly embeds the state-reconciliation core
  (src/state.ts), the Docker adapter (src/services/docker-service.ts),
  the health validator (src/services/health-validator-service.ts),
  the IDE config sync component (src/services/cursor-service.ts) and the
  relevant orchestrator workflows (src/orchestrator.ts) as pure Lean
  functions.  Effectful inputs (the state file on disk, the IDE config
  file, the Docker daemon, network probe outcomes, the interactive
  consent prompt, the current time) are passed explicitly as parameters,
  so every function is executable and every branch of the TypeScript
  source has a visible counterpart.

  JavaScript truthiness is modelled faithfully where the source relies
  on it (empty strings are falsy; `x || d` falls back on falsy `x`;
  optional parameters are `Option`s and `undefined` is `none`).
-/

namespace McpMgr

/-- JSON value, as produced by `JSON.parse`.  Objects are ordered
association lists, matching JavaScript property-insertion order, so that
structural equality of two values coincides with equality of their
`JSON.stringify` renderings. -/
inductive Json where
  | null
  | bool (b : Bool)
  | num (n : Int)
  | str (s : String)
  | arr (elems : List Json)
  | obj (fields : List (String × Json))

mutual

/-- Structural (stringify) equality on JSON values. -/
def Json.beq : Json → Json → Bool
  | .null, .null => true
  | .bool a, .bool b => a == b
  | .num a, .num b => a == b
  | .str a, .str b => a == b
  | .arr as, .arr bs => Json.beqList as bs
  | .obj as, .obj bs => Json.beqFields as bs
  | _, _ => false

/-- Pointwise `Json.beq` on arrays. -/
def Json.beqList : List Json → List Json → Bool
  | [], [] => true
  | a :: as, b :: bs => Json.beq a b && Json.beqList as bs
  | _, _ => false

/-- Pointwise `Json.beq` on object field lists. -/
def Json.beqFields : List (String × Json) → List (String × Json) → Bool
  | [], [] => true
  | (k1, v1) :: as, (k2, v2) :: bs => k1 == k2 && Json.beq v1 v2 && Json.beqFields as bs
  | _, _ => false

end

/-- JavaScript truthiness of a JSON value: `null`, `false`, `0` and the
empty string are falsy; arrays and objects are always truthy. -/
def Json.truthy : Json → Bool
  | .null => false
  | .bool b => b
  | .num n => n != 0
  | .str s => s != ""
  | .arr _ => true
  | .obj _ => true

/-- A top-level JSON object (`Record<string, unknown>` in the source). -/
abbrev JsonObj := List (String × Json)

/-- Property read `o[k]` on a JSON object. -/
def lookupKey (o : JsonObj) (k : String) : Option Json :=
  (o.find? (fun kv => kv.1 = k)).map (fun kv => kv.2)

/-- Property write `o[k] = v` on a JSON object: updates the key in place
when present, appends it otherwise (JavaScript property-insertion
order). -/
def setKey (o : JsonObj) (k : String) (v : Json) : JsonObj :=
  if (o.find? (fun kv => kv.1 = k)).isSome then
    o.map (fun kv => if kv.1 = k then (k, v) else kv)
  else
    o ++ [(k, v)]

/-- JavaScript `x || d` for an optional string (`undefined` and `""` are
falsy). -/
def jsOr (o : Option String) (d : String) : String :=
  match o with
  | some s => if s = "" then d else s
  | none => d

/-- Value of the leading decimal-digit prefix of a character list,
`none` when there is no leading digit. -/
def digitsValue (cs : List Char) : Option Nat :=
  let ds := cs.takeWhile (fun c => c.isDigit)
  if ds.isEmpty then none
  else some (ds.foldl (fun acc c => acc * 10 + (c.toNat - 48)) 0)

/-- JavaScript `Number.parseInt(s, 10)`: skip leading whitespace, accept
an optional sign, read the decimal-digit prefix; `none` models `NaN`. -/
def jsParseInt (s : String) : Option Int :=
  match s.data.dropWhile (fun c => c.isWhitespace) with
  | '-' :: rest => (digitsValue rest).map (fun n => -(n : Int))
  | '+' :: rest => (digitsValue rest).map (fun n => (n : Int))
  | cs => (digitsValue cs).map (fun n => (n : Int))

/-- Transport type of an MCP server (`'http' | 'stdio'`, src/types.ts). -/
inductive TransportType where
  | http
  | stdio
deriving DecidableEq

/-- Health validator configuration (`HealthValidatorConfig`,
src/types.ts). -/
structure HealthValidatorConfig where
  method : String
  params : JsonObj
  responseContains : Option String
  timeoutMs : Option Nat

/-- Server definition (`McpServerConfig`, src/types.ts). -/
structure McpServerConfig where
  name : String
  description : String
  image : String
  args : List String
  type : TransportType
  postStartInstructions : Option String
  healthValidator : Option HealthValidatorConfig

/-- Per-server persisted state (`McpState`, src/types.ts). -/
structure McpState where
  name : String
  endpoint : String
  envFile : Option String
  online : Bool
  manageCursorConfig : Option Bool
deriving DecidableEq

/-- Persisted state file (`McpStateFile`, src/types.ts). -/
structure McpStateFile where
  mcps : List McpState
  updatedOn : Option String
deriving DecidableEq

/-- Environment-file path for a server (`getEnvFilePath`, src/config.ts:
`join(serverConfigDir, serverName + '.env')`); the configured
`serverConfigDir` is modelled as the literal path `servers/config`. -/
def getEnvFilePath (serverName : String) : String :=
  "servers/config/" ++ serverName ++ ".env"

/-- Observable content of the state file on disk when `loadState` runs:
the file may be missing, fail `JSON.parse`, or parse to a state file
(the source casts the parsed JSON without validating its shape; the
model covers the well-shaped payloads). -/
inductive StateFileContents where
  | missing
  | unparsable
  | parsed (file : McpStateFile)

/-- Embedding of `loadState` (src/state.ts): read and parse the state
file, and on a missing file or any read/parse error return the fresh
default state `\x7b mcps: [], updatedOn: now \x7d` instead of raising;
`now` is the current `new Date().toISOString()`. -/
def loadState (now : String) : StateFileContents → McpStateFile
  | .missing => { mcps := [], updatedOn := some now }
  | .unparsable => { mcps := [], updatedOn := some now }
  | .parsed file => file

/-- Port scan inside `syncStateWithConfig` (src/state.ts): walk the args
left to right, and at each position holding the literal `--port` whose
successor parses to a number, take that number and stop. -/
def findPortInArgs : List String → Option Int
  | a :: b :: rest =>
    if a = "--port" then
      match jsParseInt b with
      | some p => some p
      | none => findPortInArgs (b :: rest)
    else findPortInArgs (b :: rest)
  | _ => none

/-- Default endpoint synthesized by `syncStateWithConfig` when no prior
endpoint is carried forward: for http servers the port scanned from the
args (default 9000) in an `http://localhost:<port>/sse` URL, for stdio
servers the `command:docker:<image>` descriptor. -/
def syncDefaultEndpoint (server : McpServerConfig) : String :=
  match server.type with
  | .http => "http://localhost:" ++ toString ((findPortInArgs server.args).getD 9000) ++ "/sse"
  | .stdio => "command:docker:" ++ server.image

/-- Output entry of `syncStateWithConfig` for one server definition: the
source keeps `existingEntry?.endpoint` only when truthy (non-empty),
carries `online` forward with `existingEntry?.online || false`, and
carries `manageCursorConfig` forward unconditionally. -/
def syncEntry (state : McpStateFile) (server : McpServerConfig) : McpState :=
  let existingEntry := state.mcps.find? (fun mcp => mcp.name = server.name)
  { name := server.name
    endpoint :=
      match existingEntry with
      | some e => if e.endpoint = "" then syncDefaultEndpoint server else e.endpoint
      | none => syncDefaultEndpoint server
    envFile := some (getEnvFilePath server.name)
    online :=
      match existingEntry with
      | some e => e.online
      | none => false
    manageCursorConfig := existingEntry.bind (fun e => e.manageCursorConfig) }

/-- Embedding of `syncStateWithConfig` (src/state.ts): rebuild the mcps
list from the configured servers only (one output entry per definition,
prior entries with unknown names are dropped), keeping the prior
`updatedOn` when truthy. -/
def syncStateWithConfig (state : McpStateFile) (servers : List McpServerConfig)
    (now : String) : McpStateFile :=
  { mcps := servers.map (syncEntry state)
    updatedOn := some (jsOr state.updatedOn now) }

/-- Embedding of `updateServerStatus` (src/state.ts): map over the
entries, setting `online` on the entries whose name matches and
spreading `(endpoint ? \x7b endpoint \x7d : \x7b\x7d)`, so a falsy
(absent or empty) endpoint argument leaves the prior endpoint in place;
`manageCursorConfig` is re-assigned to itself. -/
def updateServerStatus (state : McpStateFile) (serverName : String) (isOnline : Bool)
    (endpoint : Option String) : McpStateFile :=
  { state with
    mcps := state.mcps.map (fun mcp =>
      if mcp.name = serverName then
        { mcp with
          online := isOnline
          endpoint :=
            match endpoint with
            | some e => if e = "" then mcp.endpoint else e
            | none => mcp.endpoint }
      else mcp) }

/-- Embedding of `getServerState` (src/state.ts). -/
def getServerState (state : McpStateFile) (serverName : String) : Option McpState :=
  state.mcps.find? (fun mcp => mcp.name = serverName)

/-- Embedding of `updateServerCursorConfigPreference` (src/state.ts).
The state module exports this as the way to record the user's consent,
but no other module of the repository ever calls it. -/
def updateServerCursorConfigPreference (state : McpStateFile) (serverName : String)
    (manage : Bool) : McpStateFile :=
  if (state.mcps.find? (fun mcp => mcp.name = serverName)).isSome then
    { state with
      mcps := state.mcps.map (fun mcp =>
        if mcp.name = serverName then { mcp with manageCursorConfig := some manage }
        else mcp) }
  else
    { state with
      mcps := state.mcps ++
        [{ name := serverName
           endpoint := ""
           envFile := some (getEnvFilePath serverName)
           online := false
           manageCursorConfig := some manage }] }

/-- One invocation of the external docker CLI, as issued by
`stopAndRemoveContainer` (src/services/docker-service.ts): the
existence probe `docker ps -a --filter name=<n> --format ...`, the
destructive `docker stop <n>` and the destructive `docker rm <n>`. -/
inductive DockerCmd where
  | ps (filter : String)
  | stop (name : String)
  | rm (name : String)
deriving DecidableEq

/-- Names listed by `docker ps -a --filter name=<n>`.  The repository
always uses the exact server name as the container name (a 1-1 mapping,
spec section 3), so the daemon's name filter is modelled as exact-name
matching. -/
def psAll (world : List String) (containerName : String) : List String :=
  world.filter (fun n => n = containerName)

/-- Embedding of `stopAndRemoveContainer`
(src/services/docker-service.ts).  The docker daemon is modelled by the
list of existing container names; `docker stop` and `docker rm` exit 0
exactly when the named container exists, and `rm` removes it.  The
function returns the source's boolean result, the daemon state after
the call, and the trace of CLI commands issued: when the `ps` probe
prints nothing the source returns `true` immediately, issuing neither
`stop` nor `rm`. -/
def stopAndRemoveContainer (world : List String) (containerName : String) :
    Bool × List String × List DockerCmd :=
  let output := psAll world containerName
  if output.isEmpty then
    (true, world, [DockerCmd.ps containerName])
  else if containerName ∈ world then
    (true, world.filter (fun n => n ≠ containerName),
      [DockerCmd.ps containerName, DockerCmd.stop containerName, DockerCmd.rm containerName])
  else
    (false, world, [DockerCmd.ps containerName, DockerCmd.stop containerName])

/-- External Docker/network observations a health check can make: which
containers are running, and the verdict of the actual JSON-RPC probe
exchange of `validateHttpHealth` (HTTP POST) or `validateStdioHealth`
(throwaway container), which are pure I/O against external processes. -/
structure HealthEnv where
  containerRunning : String → Bool
  httpProbe : McpServerConfig → HealthValidatorConfig → Bool
  stdioProbe : McpServerConfig → HealthValidatorConfig → Bool

/-- Embedding of `validateHttpHealth`
(src/services/health-validator-service.ts): a non-http server fails the
guard, otherwise the outcome is the environment's verdict on the probe
exchange. -/
def validateHttpHealth (env : HealthEnv) (server : McpServerConfig)
    (validator : HealthValidatorConfig) : Bool :=
  if server.type ≠ TransportType.http then false
  else env.httpProbe server validator

/-- Embedding of `validateStdioHealth`
(src/services/health-validator-service.ts): a non-stdio server fails
the guard, otherwise the outcome is the environment's verdict on the
probe exchange. -/
def validateStdioHealth (env : HealthEnv) (server : McpServerConfig)
    (validator : HealthValidatorConfig) : Bool :=
  if server.type ≠ TransportType.stdio then false
  else env.stdioProbe server validator

/-- Embedding of `validateServerHealth`
(src/services/health-validator-service.ts): with no `healthValidator`
configured it returns `true` without consulting the environment,
otherwise it dispatches on the transport type. -/
def validateServerHealth (env : HealthEnv) (server : McpServerConfig) : Bool :=
  match server.healthValidator with
  | none => true
  | some validator =>
    match server.type with
    | .http => validateHttpHealth env server validator
    | .stdio => validateStdioHealth env server validator

/-- Embedding of the orchestrator's `healthCheck`
(src/orchestrator.ts): for http servers it first requires
`isContainerRunning(name)` and returns `false` otherwise; only then
does the missing-validator shortcut apply, after which it defers to
`validateServerHealth`. -/
def healthCheck (env : HealthEnv) (server : McpServerConfig) : Bool :=
  if server.type = TransportType.http && !(env.containerRunning server.name) then false
  else
    match server.healthValidator with
    | none => true
    | some _ => validateServerHealth env server

/-- Embedding of `updateAndSaveServerState` (src/orchestrator.ts): the
state file loaded from disk is passed in explicitly, `updateServerStatus`
is applied, and the save rewrites `updatedOn` to the current time. -/
def updateAndSaveServerState (st : McpStateFile) (now : String) (serverName : String)
    (isOnline : Bool) (endpoint : Option String) : McpStateFile :=
  { updateServerStatus st serverName isOnline endpoint with updatedOn := some now }

/-- Embedding of `validateStdioServer` (src/orchestrator.ts): run the
health validation once; on failure record `online=false` and report
failure, on success record `online=false` with the
`command:docker:<image>` endpoint and report success. -/
def validateStdioServer (env : HealthEnv) (server : McpServerConfig)
    (st : McpStateFile) (now : String) : Bool × McpStateFile :=
  if server.type ≠ TransportType.stdio then (false, st)
  else
    let isValid := validateServerHealth env server
    if isValid then
      (true, updateAndSaveServerState st now server.name false
        (some ("command:docker:" ++ server.image)))
    else
      (false, updateAndSaveServerState st now server.name false none)

/-- Embedding of `readMcpConfigFile` (src/services/cursor-service.ts):
the IDE config file on disk is modelled by `Option JsonObj`, where
`none` stands for a missing or unparsable file (both yield the empty
object without raising) and `some o` for a file whose content parses to
the top-level object `o` (the `Record<string, unknown>` of the
source). -/
def readMcpConfigFile : Option JsonObj → JsonObj
  | none => []
  | some o => o

/-- Embedding of `getMcpServers` (src/services/cursor-service.ts):
`config.mcpServers || \x7b\x7d` — the raw value of the `mcpServers` key
when truthy, the empty object otherwise. -/
def getMcpServers (file : Option JsonObj) : Json :=
  match lookupKey (readMcpConfigFile file) "mcpServers" with
  | some v => if v.truthy then v else Json.obj []
  | none => Json.obj []

/-- The assignment loop of `addMcpServers`: each given entry is written
into the base object in order (later duplicates win, property order
preserved). -/
def insertEntries (base : JsonObj) (servers : JsonObj) : JsonObj :=
  servers.foldl (fun acc kv => setKey acc kv.1 kv.2) base

/-- Embedding of `addMcpServers` (src/services/cursor-service.ts):
read-modify-write of the `mcpServers` key.  A falsy `mcpServers` value
is first replaced by the empty object (`if (!config.mcpServers)
config.mcpServers = \x7b\x7d`) and the entries are then merged into the
object.  `writeOk` is the outcome of the `writeMcpConfigFile` call; a
failed write leaves the file untouched and returns `false`.  A truthy
non-object `mcpServers` value splits further: on a primitive
(bool/num/str) the strict-mode property assignment raises, the error is
caught and `false` is returned without writing; on an array the
property assignment succeeds (arrays are objects) but `JSON.stringify`
drops the string-keyed properties, so the file is written with the
original array value under `mcpServers`, the added entries silently
lost, and the call still reports success.  (A server name that is a
canonical array index would land in the array instead; the model covers
non-index names, which is every name the repository uses.) -/
def addMcpServers (writeOk : Bool) (file : Option JsonObj) (servers : JsonObj) :
    Bool × Option JsonObj :=
  let config := readMcpConfigFile file
  match lookupKey config "mcpServers" with
  | some v =>
    if v.truthy then
      match v with
      | Json.obj kvs =>
        let newConfig := setKey config "mcpServers" (Json.obj (insertEntries kvs servers))
        if writeOk then (true, some newConfig) else (false, file)
      | Json.arr xs =>
        let newConfig := setKey config "mcpServers" (Json.arr xs)
        if writeOk then (true, some newConfig) else (false, file)
      | _ => (false, file)
    else
      let newConfig := setKey config "mcpServers" (Json.obj (insertEntries [] servers))
      if writeOk then (true, some newConfig) else (false, file)
  | none =>
    let newConfig := setKey config "mcpServers" (Json.obj (insertEntries [] servers))
    if writeOk then (true, some newConfig) else (false, file)

/-- The `mcpServers` object a successful `addMcpServers` merges into:
the prior object value of the key, the empty object when the key is
absent or its value falsy. -/
def priorMcpServers (file : Option JsonObj) : JsonObj :=
  match lookupKey (readMcpConfigFile file) "mcpServers" with
  | some (Json.obj kvs) => kvs
  | _ => []

/-- Embedding of `updateCursorConfigForServer` (src/orchestrator.ts).
Explicit inputs replace the effects: `mcpConfigPath` is the configured
path (the empty string is the falsy unset value and skips the update),
`transformed` is the entry computed by `transformServerConfigForCursor`,
`userConsent` is the answer of the interactive `confirm` prompt,
`writeOk` the outcome of the config-file write, `file` the IDE config
file and `st` the persisted state file.  The result carries the
function's boolean result, the IDE config file after the call, and the
state file after the call. -/
def updateCursorConfigForServer (server : McpServerConfig) (forceUpdate : Bool)
    (mcpConfigPath : String) (transformed : Json) (userConsent : Bool)
    (writeOk : Bool) (file : Option JsonObj) (st : McpStateFile) :
    Bool × Option JsonObj × McpStateFile :=
  if mcpConfigPath = "" then (true, file, st)
  else
    let currentServers := getMcpServers file
    let curEntry : Option Json :=
      match currentServers with
      | Json.obj kvs => lookupKey kvs server.name
      | _ => none
    let serverInConfig :=
      match curEntry with
      | some v => v.truthy
      | none => false
    let unchanged :=
      serverInConfig &&
        (match curEntry with
         | some v => Json.beq v transformed
         | none => false)
    if unchanged then (true, file, st)
    else
      let shouldUpdate := forceUpdate || userConsent
      if shouldUpdate then
        let result := addMcpServers writeOk file [(server.name, transformed)]
        (result.1, result.2, st)
      else (true, file, st)

theorem lookup_map_set_self (o : JsonObj) (k : String) (v : Json)
    (h : (o.find? (fun kv => kv.1 = k)).isSome) :
    lookupKey (o.map (fun kv => if kv.1 = k then (k, v) else kv)) k = some v := by
  induction o with
  | nil => simp at h
  | cons hd tl ih =>
    by_cases hh : hd.1 = k
    · simp [lookupKey, List.find?_cons_of_pos, hh]
    · rw [List.map_cons, if_neg hh]
      rw [List.find?_cons_of_neg _ (by simp [hh])] at h
      unfold lookupKey
      rw [List.find?_cons_of_neg _ (by simp [hh])]
      exact ih h

theorem lookup_append_self (o : JsonObj) (k : String) (v : Json)
    (h : o.find? (fun kv => kv.1 = k) = none) :
    lookupKey (o ++ [(k, v)]) k = some v := by
  induction o with
  | nil => simp [lookupKey]
  | cons hd tl ih =>
    rw [List.find?_cons] at h
    split at h
    · exact absurd h (by simp)
    · rename_i hh
      rw [List.cons_append]
      unfold lookupKey
      rw [List.find?_cons_of_neg _ (by simp [hh])]
      exact ih h

theorem lookup_map_set_ne (o : JsonObj) (k k2 : String) (v : Json) (h : k2 ≠ k) :
    lookupKey (o.map (fun kv => if kv.1 = k then (k, v) else kv)) k2 = lookupKey o k2 := by
  induction o with
  | nil => simp
  | cons hd tl ih =>
    by_cases hh : hd.1 = k
    · rw [List.map_cons, if_pos hh]
      unfold lookupKey
      rw [List.find?_cons_of_neg _ (by simp [Ne.symm h]),
        List.find?_cons_of_neg _ (by simp [hh]; exact fun hc => h hc.symm)]
      exact ih
    · rw [List.map_cons, if_neg hh]
      by_cases h2 : hd.1 = k2
      · unfold lookupKey
        rw [List.find?_cons_of_pos _ (by simp [h2]), List.find?_cons_of_pos _ (by simp [h2])]
      · unfold lookupKey
        rw [List.find?_cons_of_neg _ (by simp [h2]), List.find?_cons_of_neg _ (by simp [h2])]
        exact ih

theorem lookup_append_ne (o : JsonObj) (k k2 : String) (v : Json) (h : k2 ≠ k) :
    lookupKey (o ++ [(k, v)]) k2 = lookupKey o k2 := by
  induction o with
  | nil => simp [lookupKey, Ne.symm h]
  | cons hd tl ih =>
    by_cases h2 : hd.1 = k2
    · unfold lookupKey
      rw [List.cons_append, List.find?_cons_of_pos _ (by simp [h2]),
        List.find?_cons_of_pos _ (by simp [h2])]
    · unfold lookupKey
      rw [List.cons_append, List.find?_cons_of_neg _ (by simp [h2]),
        List.find?_cons_of_neg _ (by simp [h2])]
      exact ih

theorem lookupKey_setKey_self (o : JsonObj) (k : String) (v : Json) :
    lookupKey (setKey o k v) k = some v := by
  unfold setKey
  split
  · rename_i hsome
    exact lookup_map_set_self o k v hsome
  · rename_i hnone
    exact lookup_append_self o k v (Option.not_isSome_iff_eq_none.mp hnone)

theorem lookupKey_setKey_ne (o : JsonObj) (k k2 : String) (v : Json) (h : k2 ≠ k) :
    lookupKey (setKey o k v) k2 = lookupKey o k2 := by
  unfold setKey
  split
  · exact lookup_map_set_ne o k k2 v h
  · exact lookup_append_ne o k k2 v h

theorem addMcpServers_cases (writeOk : Bool) (file : Option JsonObj) (servers : JsonObj) :
    addMcpServers writeOk file servers = (false, file) ∨
    (writeOk = true ∧ addMcpServers writeOk file servers =
      (true, some (setKey (readMcpConfigFile file) "mcpServers"
        (Json.obj (insertEntries (priorMcpServers file) servers))))) ∨
    (∃ xs, lookupKey (readMcpConfigFile file) "mcpServers" = some (Json.arr xs) ∧
      writeOk = true ∧
      addMcpServers writeOk file servers =
        (true, some (setKey (readMcpConfigFile file) "mcpServers" (Json.arr xs)))) := by
  unfold addMcpServers
  cases hlk : lookupKey (readMcpConfigFile file) "mcpServers" with
  | none =>
    cases writeOk with
    | false => left; simp [hlk]
    | true => right; left; exact ⟨rfl, by simp [priorMcpServers, hlk]⟩
  | some v =>
    cases v with
    | null =>
      cases writeOk with
      | false => left; simp [hlk, Json.truthy]
      | true => right; left; exact ⟨rfl, by simp [Json.truthy, priorMcpServers, hlk]⟩
    | bool b =>
      cases b with
      | false =>
        cases writeOk with
        | false => left; simp [hlk, Json.truthy]
        | true => right; left; exact ⟨rfl, by simp [Json.truthy, priorMcpServers, hlk]⟩
      | true => left; simp [hlk, Json.truthy]
    | num n =>
      by_cases hn : n = 0
      · cases writeOk with
        | false => left; simp [hlk, Json.truthy, hn]
        | true => right; left; exact ⟨rfl, by simp [Json.truthy, hn, priorMcpServers, hlk]⟩
      · left; simp [hlk, Json.truthy, hn]
    | str s =>
      by_cases hs : s = ""
      · cases writeOk with
        | false => left; simp [hlk, Json.truthy, hs]
        | true => right; left; exact ⟨rfl, by simp [Json.truthy, hs, priorMcpServers, hlk]⟩
      · left; simp [hlk, Json.truthy, hs]
    | arr xs =>
      cases writeOk with
      | false => left; simp [hlk, Json.truthy]
      | true => right; right; exact ⟨xs, rfl, rfl, by simp [Json.truthy, hlk]⟩
    | obj kvs =>
      cases writeOk with
      | false => left; simp [hlk, Json.truthy]
      | true => right; left; exact ⟨rfl, by simp [Json.truthy, priorMcpServers, hlk]⟩

theorem addMcpServers_arr (writeOk : Bool) (file : Option JsonObj) (servers : JsonObj)
    (xs : List Json)
    (hlk : lookupKey (readMcpConfigFile file) "mcpServers" = some (Json.arr xs)) :
    addMcpServers writeOk file servers =
      if writeOk then
        (true, some (setKey (readMcpConfigFile file) "mcpServers" (Json.arr xs)))
      else (false, file) := by
  unfold addMcpServers
  cases writeOk with
  | false => simp [hlk, Json.truthy]
  | true => simp [hlk, Json.truthy]

/-- C5 counterexample: on a config file holding `"mcpServers": []` (an
array, truthy, so the falsy-reset is skipped), the source's property
assignment on the array succeeds and the write reports success, but
`JSON.stringify` drops the string-keyed entries: reading back yields
the bare array again, not the written map, so writing then reading back
does not give a structurally-equal `mcpServers` map. -/
theorem c5_addMcpServers_counterexample :
    (addMcpServers true (some [("mcpServers", Json.arr [])])
      [("svc", Json.obj [("url", Json.str "http://localhost:9000/sse")])]).1 = true ∧
    getMcpServers (addMcpServers true (some [("mcpServers", Json.arr [])])
      [("svc", Json.obj [("url", Json.str "http://localhost:9000/sse")])]).2
      = Json.arr [] ∧
    Json.arr [] ≠ Json.obj (insertEntries (priorMcpServers (some [("mcpServers", Json.arr [])]))
      [("svc", Json.obj [("url", Json.str "http://localhost:9000/sse")])]) :=
  ⟨rfl, rfl, fun h => Json.noConfusion h⟩

/-- C5 (amended): `addMcpServers` touches only the `mcpServers` key of
the IDE config file — for every other top-level key, reading it after
the call gives exactly what it gave before — and on a successful write
whose prior `mcpServers` value is not an array, reading the file back
yields the `mcpServers` map that was written: the prior map (empty when
the key was absent or falsy) merged, in order, with the given server
entries.  When the prior value is an array, the call succeeds whenever
the write does, but the added entries are dropped by serialization and
reading back returns the original array unchanged. -/
theorem c5_addMcpServers_frame_roundtrip (writeOk : Bool) (file : Option JsonObj)
    (servers : JsonObj) :
    (∀ k, k ≠ "mcpServers" →
      lookupKey (readMcpConfigFile (addMcpServers writeOk file servers).2) k
        = lookupKey (readMcpConfigFile file) k) ∧
    ((addMcpServers writeOk file servers).1 = true →
      (∀ xs, lookupKey (readMcpConfigFile file) "mcpServers" ≠ some (Json.arr xs)) →
      getMcpServers (addMcpServers writeOk file servers).2
        = Json.obj (insertEntries (priorMcpServers file) servers)) ∧
    (∀ xs, lookupKey (readMcpConfigFile file) "mcpServers" = some (Json.arr xs) →
      (addMcpServers writeOk file servers).1 = writeOk ∧
      ((addMcpServers writeOk file servers).1 = true →
        getMcpServers (addMcpServers writeOk file servers).2 = Json.arr xs)) := by
  refine ⟨?_, ?_, ?_⟩
  · intro k hk
    rcases addMcpServers_cases writeOk file servers with heq | ⟨hw, heq⟩ | ⟨xs, hlk, hw, heq⟩
    · rw [heq]
    · rw [heq]
      exact lookupKey_setKey_ne _ _ _ _ hk
    · rw [heq]
      exact lookupKey_setKey_ne _ _ _ _ hk
  · intro hT hnoarr
    rcases addMcpServers_cases writeOk file servers with heq | ⟨hw, heq⟩ | ⟨xs, hlk, hw, heq⟩
    · rw [heq] at hT
      exact absurd hT (by simp)
    · rw [heq]
      show getMcpServers (some (setKey (readMcpConfigFile file) "mcpServers"
        (Json.obj (insertEntries (priorMcpServers file) servers)))) = _
      unfold getMcpServers
      rw [show readMcpConfigFile (some (setKey (readMcpConfigFile file) "mcpServers"
          (Json.obj (insertEntries (priorMcpServers file) servers))))
        = setKey (readMcpConfigFile file) "mcpServers"
          (Json.obj (insertEntries (priorMcpServers file) servers)) from rfl]
      rw [lookupKey_setKey_self]
      simp [Json.truthy]
    · exact absurd hlk (hnoarr xs)
  · intro xs hlk
    cases writeOk with
    | false =>
      rw [addMcpServers_arr false file servers xs hlk]
      exact ⟨by simp, fun h => absurd h (by simp)⟩
    | true =>
      rw [addMcpServers_arr true file servers xs hlk]
      refine ⟨by simp, fun _ => ?_⟩
      show getMcpServers (some (setKey (readMcpConfigFile file) "mcpServers" (Json.arr xs)))
        = Json.arr xs
      unfold getMcpServers
      rw [show readMcpConfigFile (some (setKey (readMcpConfigFile file) "mcpServers"
          (Json.arr xs)))
        = setKey (readMcpConfigFile file) "mcpServers" (Json.arr xs) from rfl]
      rw [lookupKey_setKey_self]
      simp [Json.truthy]

/-- C5 witness: a concrete successful write on a file holding one
unrelated key (and no array-valued `mcpServers`) preserves that key and
round-trips the written map. -/
theorem c5_addMcpServers_frame_roundtrip_witness :
    lookupKey (readMcpConfigFile
        (addMcpServers true (some [("otherKey", Json.num 1)])
          [("svc", Json.obj [("url", Json.str "http://localhost:9000/sse")])]).2) "otherKey"
      = lookupKey (readMcpConfigFile (some [("otherKey", Json.num 1)])) "otherKey" ∧
    getMcpServers (addMcpServers true (some [("otherKey", Json.num 1)])
        [("svc", Json.obj [("url", Json.str "http://localhost:9000/sse")])]).2
      = Json.obj (insertEntries (priorMcpServers (some [("otherKey", Json.num 1)]))
          [("svc", Json.obj [("url", Json.str "http://localhost:9000/sse")])]) :=
  ⟨(c5_addMcpServers_frame_roundtrip true (some [("otherKey", Json.num 1)])
      [("svc", Json.obj [("url", Json.str "http://localhost:9000/sse")])]).1 "otherKey"
      (by decide),
   (c5_addMcpServers_frame_roundtrip true (some [("otherKey", Json.num 1)])
      [("svc", Json.obj [("url", Json.str "http://localhost:9000/sse")])]).2.1 rfl
      (fun xs h => Option.noConfusion h)⟩

/-- C8: `loadState` never raises — it is a total function — and both on
a missing state file and on contents that fail to parse it returns the
fresh empty state file with `updatedOn` set to the current time. -/
theorem c8_loadState_default (now : String) :
    loadState now StateFileContents.missing = { mcps := [], updatedOn := some now } ∧
    loadState now StateFileContents.unparsable = { mcps := [], updatedOn := some now } :=
  ⟨rfl, rfl⟩

theorem psAll_eq_nil_iff (world : List String) (n : String) :
    psAll world n = [] ↔ n ∉ world := by
  unfold psAll
  rw [List.filter_eq_nil_iff]
  constructor
  · intro h hmem
    have := h n hmem
    simp at this
  · intro h a ha
    simp only [decide_eq_true_eq]
    intro heq
    exact h (heq ▸ ha)

/-- C4: `stopAndRemoveContainer` is idempotent.  When no container with
the given name exists it returns success after the `docker ps` probe
alone, issuing no `stop` or `rm`; and for any daemon state, two calls in
a row both return success, with the second call's command trace
consisting of the probe only. -/
theorem c4_stopAndRemove_idempotent (world : List String) (containerName : String) :
    (containerName ∉ world →
      stopAndRemoveContainer world containerName
        = (true, world, [DockerCmd.ps containerName])) ∧
    (stopAndRemoveContainer world containerName).1 = true ∧
    (stopAndRemoveContainer (stopAndRemoveContainer world containerName).2.1 containerName).1
      = true ∧
    (stopAndRemoveContainer (stopAndRemoveContainer world containerName).2.1 containerName).2.2
      = [DockerCmd.ps containerName] := by
  by_cases hm : containerName ∈ world
  · have hne : ¬ psAll world containerName = [] := by
      rw [psAll_eq_nil_iff]
      simpa using hm
    have h1 : stopAndRemoveContainer world containerName =
        (true, world.filter (fun n => n ≠ containerName),
          [DockerCmd.ps containerName, DockerCmd.stop containerName,
            DockerCmd.rm containerName]) := by
      unfold stopAndRemoveContainer
      simp [hne, hm, List.isEmpty_iff]
    have h2 : containerName ∉ world.filter (fun n => n ≠ containerName) := by simp
    have he2 : psAll (world.filter (fun n => n ≠ containerName)) containerName = [] :=
      (psAll_eq_nil_iff _ _).mpr h2
    have hsecond : stopAndRemoveContainer (world.filter (fun n => n ≠ containerName))
        containerName
        = (true, world.filter (fun n => n ≠ containerName), [DockerCmd.ps containerName]) := by
      simp only [ne_eq, decide_not] at he2
      unfold stopAndRemoveContainer
      simp [he2, List.isEmpty_iff]
    refine ⟨fun hn => absurd hm hn, ?_, ?_, ?_⟩
    · rw [h1]
    · rw [h1]
      show (stopAndRemoveContainer (world.filter (fun n => n ≠ containerName))
        containerName).1 = true
      rw [hsecond]
    · rw [h1]
      show (stopAndRemoveContainer (world.filter (fun n => n ≠ containerName))
        containerName).2.2 = [DockerCmd.ps containerName]
      rw [hsecond]
  · have he : psAll world containerName = [] := (psAll_eq_nil_iff world containerName).mpr hm
    have h1 : stopAndRemoveContainer world containerName
        = (true, world, [DockerCmd.ps containerName]) := by
      unfold stopAndRemoveContainer
      simp [he, List.isEmpty_iff]
    refine ⟨fun _ => h1, ?_, ?_, ?_⟩
    · rw [h1]
    · rw [h1]
      show (stopAndRemoveContainer world containerName).1 = true
      rw [h1]
    · rw [h1]
      show (stopAndRemoveContainer world containerName).2.2 = [DockerCmd.ps containerName]
      rw [h1]

/-- C4 witness: with one unrelated container present and the target
container absent, the call succeeds destroying nothing, and the repeated
call issues only the probe. -/
theorem c4_stopAndRemove_idempotent_witness :
    stopAndRemoveContainer ["other"] "svc" = (true, ["other"], [DockerCmd.ps "svc"]) ∧
    (stopAndRemoveContainer (stopAndRemoveContainer ["other"] "svc").2.1 "svc").1 = true ∧
    (stopAndRemoveContainer (stopAndRemoveContainer ["other"] "svc").2.1 "svc").2.2
      = [DockerCmd.ps "svc"] :=
  ⟨(c4_stopAndRemove_idempotent ["other"] "svc").1 (by decide),
   (c4_stopAndRemove_idempotent ["other"] "svc").2.2.1,
   (c4_stopAndRemove_idempotent ["other"] "svc").2.2.2⟩

/-- C6 counterexample: `updateServerStatus` called with the supplied
endpoint argument `""` does not replace the entry's endpoint — the
spread `(endpoint ? \x7b endpoint \x7d : \x7b\x7d)` treats the supplied
empty string as absent, so the prior endpoint `"old"` is retained even
though an endpoint argument was supplied. -/
theorem c6_updateStatus_counterexample :
    (getServerState (updateServerStatus
        { mcps := [{ name := "a", endpoint := "old", envFile := none, online := false,
                     manageCursorConfig := none }], updatedOn := some "t" }
        "a" true (some "")) "a").map McpState.endpoint = some "old" ∧
    (getServerState (updateServerStatus
        { mcps := [{ name := "a", endpoint := "old", envFile := none, online := false,
                     manageCursorConfig := none }], updatedOn := some "t" }
        "a" true (some "")) "a").map McpState.endpoint ≠ some "" :=
  ⟨rfl, by decide⟩

/-- C6 (amended): `updateServerStatus` is a pure update that leaves
`updatedOn` and the list length alone; entries with a different name are
unchanged; on the matching entries the online flag is set, the name,
consent and env-file fields are carried forward, the endpoint is
replaced exactly when a nonempty endpoint argument is supplied, and an
omitted or empty-string endpoint argument retains the prior endpoint. -/
theorem c6_updateStatus_amended (st : McpStateFile) (serverName : String) (isOnline : Bool)
    (endpoint : Option String) :
    (updateServerStatus st serverName isOnline endpoint).updatedOn = st.updatedOn ∧
    (updateServerStatus st serverName isOnline endpoint).mcps.length = st.mcps.length ∧
    ∀ i (hi : i < st.mcps.length)
      (hj : i < (updateServerStatus st serverName isOnline endpoint).mcps.length),
      ((st.mcps[i]).name ≠ serverName →
        (updateServerStatus st serverName isOnline endpoint).mcps[i] = st.mcps[i]) ∧
      ((st.mcps[i]).name = serverName →
        ((updateServerStatus st serverName isOnline endpoint).mcps[i]).name
            = (st.mcps[i]).name ∧
        ((updateServerStatus st serverName isOnline endpoint).mcps[i]).online = isOnline ∧
        ((updateServerStatus st serverName isOnline endpoint).mcps[i]).manageCursorConfig
            = (st.mcps[i]).manageCursorConfig ∧
        ((updateServerStatus st serverName isOnline endpoint).mcps[i]).envFile
            = (st.mcps[i]).envFile ∧
        (endpoint = none →
          ((updateServerStatus st serverName isOnline endpoint).mcps[i]).endpoint
            = (st.mcps[i]).endpoint) ∧
        (endpoint = some "" →
          ((updateServerStatus st serverName isOnline endpoint).mcps[i]).endpoint
            = (st.mcps[i]).endpoint) ∧
        (∀ e, endpoint = some e → e ≠ "" →
          ((updateServerStatus st serverName isOnline endpoint).mcps[i]).endpoint = e)) := by
  refine ⟨rfl, by simp [updateServerStatus], ?_⟩
  intro i hi hj
  constructor
  · intro hne
    simp [updateServerStatus, List.getElem_map, hne]
  · intro heq
    refine ⟨?_, ?_, ?_, ?_, ?_, ?_, ?_⟩
    · simp [updateServerStatus, List.getElem_map, heq]
    · simp [updateServerStatus, List.getElem_map, heq]
    · simp [updateServerStatus, List.getElem_map, heq]
    · simp [updateServerStatus, List.getElem_map, heq]
    · intro h
      subst h
      simp [updateServerStatus, List.getElem_map, heq]
    · intro h
      subst h
      simp [updateServerStatus, List.getElem_map, heq]
    · intro e h hne
      subst h
      simp [updateServerStatus, List.getElem_map, heq, hne]

/-- C6 witness: on a one-entry state file, supplying a nonempty endpoint
replaces the endpoint of the matching entry and sets it online. -/
theorem c6_updateStatus_amended_witness :
    ((updateServerStatus
        { mcps := [{ name := "a", endpoint := "old", envFile := none, online := false,
                     manageCursorConfig := none }], updatedOn := some "t" }
        "a" true (some "new")).mcps.get ⟨0, by decide⟩).online = true ∧
    ((updateServerStatus
        { mcps := [{ name := "a", endpoint := "old", envFile := none, online := false,
                     manageCursorConfig := none }], updatedOn := some "t" }
        "a" true (some "new")).mcps.get ⟨0, by decide⟩).endpoint = "new" :=
  ⟨((c6_updateStatus_amended
      { mcps := [{ name := "a", endpoint := "old", envFile := none, online := false,
                   manageCursorConfig := none }], updatedOn := some "t" }
      "a" true (some "new")).2.2 0 (by decide) (by decide)).2 (by decide)|>.2.1,
   (((c6_updateStatus_amended
      { mcps := [{ name := "a", endpoint := "old", envFile := none, online := false,
                   manageCursorConfig := none }], updatedOn := some "t" }
      "a" true (some "new")).2.2 0 (by decide) (by decide)).2 (by decide)
      |>.2.2.2.2.2.2) "new" rfl (by decide)⟩

/-- C10: `updateServerStatus` on a server name with no entry in the
state file is a no-op — the returned state file equals the input (same
entries element-wise, no entry created, no error raised). -/
theorem c10_updateStatus_missing_noop (st : McpStateFile) (serverName : String)
    (isOnline : Bool) (endpoint : Option String)
    (h : getServerState st serverName = none) :
    updateServerStatus st serverName isOnline endpoint = st := by
  rcases st with ⟨mcps, updatedOn⟩
  unfold getServerState at h
  simp only at h
  unfold updateServerStatus
  simp only [McpStateFile.mk.injEq, and_true]
  revert h
  induction mcps with
  | nil =>
    intro h
    simp
  | cons a t ih =>
    intro h
    rw [List.find?_cons] at h
    split at h
    · exact absurd h (by simp)
    · rename_i hpa
      rw [List.map_cons, if_neg (by simpa using hpa), ih h]

/-- C10 witness: updating a name absent from a concrete one-entry state
file returns that state file unchanged. -/
theorem c10_updateStatus_missing_noop_witness :
    updateServerStatus
        { mcps := [{ name := "a", endpoint := "e", envFile := none, online := false,
                     manageCursorConfig := none }], updatedOn := some "t" }
        "b" true (some "x")
      = { mcps := [{ name := "a", endpoint := "e", envFile := none, online := false,
                     manageCursorConfig := none }], updatedOn := some "t" } :=
  c10_updateStatus_missing_noop _ "b" true (some "x") (by decide)

/-- C1 counterexample: a prior entry whose endpoint is the empty string
is matched by name, yet `syncStateWithConfig` does not keep that
endpoint — the truthiness test `existingEntry?.endpoint` treats `""` as
absent and the synthesized default `http://localhost:9000/sse` is used
instead, so the claim's "keeps that entry's endpoint" fails at this
input. -/
theorem c1_reconcile_counterexample :
    (getServerState (syncStateWithConfig
        { mcps := [{ name := "a", endpoint := "", envFile := none, online := false,
                     manageCursorConfig := none }], updatedOn := some "t" }
        [{ name := "a", description := "d", image := "img", args := [],
           type := TransportType.http, postStartInstructions := none,
           healthValidator := none }] "now") "a").map McpState.endpoint
      = some "http://localhost:9000/sse" ∧
    (getServerState (syncStateWithConfig
        { mcps := [{ name := "a", endpoint := "", envFile := none, online := false,
                     manageCursorConfig := none }], updatedOn := some "t" }
        [{ name := "a", description := "d", image := "img", args := [],
           type := TransportType.http, postStartInstructions := none,
           healthValidator := none }] "now") "a").map McpState.endpoint ≠ some "" :=
  ⟨rfl, by decide⟩

/-- C1 (amended): `syncStateWithConfig` returns exactly one entry per
given definition, in order; each output entry carries the definition's
name, the definition's env-file path, and the prior entry's
`manageCursorConfig`; a definition with no prior entry gets the default
endpoint (`http://localhost:<port-from-args-or-9000>/sse` for http,
`command:docker:<image>` for stdio) and `online = false`; a definition
with a prior entry keeps that entry's endpoint when it is nonempty and
receives the synthesized default when the prior endpoint is the empty
string; and every output entry's name is the name of some given
definition, so prior entries with names outside the definition list do
not appear. -/
theorem c1_reconcile_amended (state : McpStateFile) (servers : List McpServerConfig)
    (now : String) :
    (syncStateWithConfig state servers now).mcps.length = servers.length ∧
    (∀ e ∈ (syncStateWithConfig state servers now).mcps, ∃ s ∈ servers, e.name = s.name) ∧
    ∀ i (hi : i < servers.length)
      (hj : i < (syncStateWithConfig state servers now).mcps.length),
      ((syncStateWithConfig state servers now).mcps[i]).name = (servers[i]).name ∧
      ((syncStateWithConfig state servers now).mcps[i]).envFile
        = some (getEnvFilePath (servers[i]).name) ∧
      ((syncStateWithConfig state servers now).mcps[i]).manageCursorConfig
        = (getServerState state (servers[i]).name).bind (fun e => e.manageCursorConfig) ∧
      (getServerState state (servers[i]).name = none →
        ((syncStateWithConfig state servers now).mcps[i]).online = false ∧
        ((syncStateWithConfig state servers now).mcps[i]).endpoint
          = syncDefaultEndpoint (servers[i])) ∧
      ∀ prior, getServerState state (servers[i]).name = some prior →
        (prior.endpoint ≠ "" →
          ((syncStateWithConfig state servers now).mcps[i]).endpoint = prior.endpoint) ∧
        (prior.endpoint = "" →
          ((syncStateWithConfig state servers now).mcps[i]).endpoint
            = syncDefaultEndpoint (servers[i])) := by
  refine ⟨by simp [syncStateWithConfig], ?_, ?_⟩
  · intro e he
    simp only [syncStateWithConfig, List.mem_map] at he
    obtain ⟨s, hs, hes⟩ := he
    exact ⟨s, hs, by rw [← hes]; rfl⟩
  · intro i hi hj
    have hentry : (syncStateWithConfig state servers now).mcps[i]
        = syncEntry state (servers[i]) := by
      simp [syncStateWithConfig, List.getElem_map]
    rw [hentry]
    refine ⟨rfl, rfl, rfl, ?_, ?_⟩
    · intro hnone
      unfold getServerState at hnone
      constructor
      · simp [syncEntry, hnone]
      · simp [syncEntry, hnone]
    · intro prior hprior
      unfold getServerState at hprior
      constructor
      · intro hne
        simp [syncEntry, hprior, hne]
      · intro hemp
        simp [syncEntry, hprior, hemp]

/-- C1 witness: a prior entry with a nonempty endpoint is carried
forward unchanged even though the definition's args name another port. -/
theorem c1_reconcile_amended_witness :
    ((syncStateWithConfig
        { mcps := [{ name := "a", endpoint := "http://localhost:9001/sse", envFile := none,
                     online := true, manageCursorConfig := some true }], updatedOn := some "t" }
        [{ name := "a", description := "d", image := "img", args := ["--port", "9002"],
           type := TransportType.http, postStartInstructions := none,
           healthValidator := none }] "now").mcps.get ⟨0, by decide⟩).endpoint
      = "http://localhost:9001/sse" :=
  (((c1_reconcile_amended
      { mcps := [{ name := "a", endpoint := "http://localhost:9001/sse", envFile := none,
                   online := true, manageCursorConfig := some true }], updatedOn := some "t" }
      [{ name := "a", description := "d", image := "img", args := ["--port", "9002"],
         type := TransportType.http, postStartInstructions := none,
         healthValidator := none }] "now").2.2 0 (by decide) (by decide)).2.2.2.2
    { name := "a", endpoint := "http://localhost:9001/sse", envFile := none,
      online := true, manageCursorConfig := some true } (by decide)).1 (by decide)

/-- C9: `syncStateWithConfig` carries the prior entry's online flag
forward — for a definition whose name matches a prior entry, the output
entry's online flag equals the prior one's (so reconciliation never
resets a server recorded as online back to offline), and online
defaults to false exactly when no prior entry exists. -/
theorem c9_reconcile_preserves_online (state : McpStateFile)
    (servers : List McpServerConfig) (now : String) :
    ∀ i (hi : i < servers.length)
      (hj : i < (syncStateWithConfig state servers now).mcps.length),
      (∀ prior, getServerState state (servers[i]).name = some prior →
        ((syncStateWithConfig state servers now).mcps[i]).online = prior.online) ∧
      (getServerState state (servers[i]).name = none →
        ((syncStateWithConfig state servers now).mcps[i]).online = false) := by
  intro i hi hj
  have hentry : (syncStateWithConfig state servers now).mcps[i]
      = syncEntry state (servers[i]) := by
    simp [syncStateWithConfig, List.getElem_map]
  rw [hentry]
  constructor
  · intro prior hprior
    unfold getServerState at hprior
    simp [syncEntry, hprior]
  · intro hnone
    unfold getServerState at hnone
    simp [syncEntry, hnone]

/-- C9 witness: a prior entry recorded online stays online across
reconciliation. -/
theorem c9_reconcile_preserves_online_witness :
    ((syncStateWithConfig
        { mcps := [{ name := "a", endpoint := "http://localhost:9000/sse", envFile := none,
                     online := true, manageCursorConfig := none }], updatedOn := some "t" }
        [{ name := "a", description := "d", image := "img", args := [],
           type := TransportType.http, postStartInstructions := none,
           healthValidator := none }] "now").mcps.get ⟨0, by decide⟩).online = true :=
  ((c9_reconcile_preserves_online
      { mcps := [{ name := "a", endpoint := "http://localhost:9000/sse", envFile := none,
                   online := true, manageCursorConfig := none }], updatedOn := some "t" }
      [{ name := "a", description := "d", image := "img", args := [],
         type := TransportType.http, postStartInstructions := none,
         healthValidator := none }] "now" 0 (by decide) (by decide)).1
    { name := "a", endpoint := "http://localhost:9000/sse", envFile := none,
      online := true, manageCursorConfig := none } (by decide))

/-- C2 counterexample: an http server with no `healthValidator` is
reported unhealthy by the orchestrator's `healthCheck` when no container
with its name is running — the container-running precondition fires
before the missing-validator shortcut, so the result is not independent
of Docker state. -/
theorem c2_healthCheck_counterexample :
    ({ name := "svc", description := "d", image := "img", args := [],
       type := TransportType.http, postStartInstructions := none,
       healthValidator := none } : McpServerConfig).healthValidator = none ∧
    healthCheck
      { containerRunning := fun _ => false, httpProbe := fun _ _ => true,
        stdioProbe := fun _ _ => true }
      { name := "svc", description := "d", image := "img", args := [],
        type := TransportType.http, postStartInstructions := none,
        healthValidator := none } = false :=
  ⟨rfl, rfl⟩

/-- C2 (amended): a server with no `healthValidator` is vacuously
healthy for `validateServerHealth`, whatever the Docker or network
state; the orchestrator's `healthCheck` likewise reports it healthy for
stdio servers and whenever the server's container is running, but for an
http server whose container is not running `healthCheck` returns false
before ever consulting the validator. -/
theorem c2_vacuousHealth_amended (env : HealthEnv) (server : McpServerConfig)
    (h : server.healthValidator = none) :
    validateServerHealth env server = true ∧
    (server.type = TransportType.stdio → healthCheck env server = true) ∧
    (env.containerRunning server.name = true → healthCheck env server = true) ∧
    (server.type = TransportType.http → env.containerRunning server.name = false →
      healthCheck env server = false) := by
  refine ⟨?_, ?_, ?_, ?_⟩
  · unfold validateServerHealth
    rw [h]
  · intro ht
    unfold healthCheck
    simp [h, ht]
  · intro hcr
    unfold healthCheck
    simp [h, hcr]
  · intro ht hcr
    unfold healthCheck
    simp [h, ht, hcr]

/-- C2 witness: a concrete stdio server with no validator is healthy for
both the validator and the orchestrator health check, in an environment
where nothing is running and every probe would fail. -/
theorem c2_vacuousHealth_amended_witness :
    validateServerHealth
      { containerRunning := fun _ => false, httpProbe := fun _ _ => false,
        stdioProbe := fun _ _ => false }
      { name := "svcio", description := "d", image := "img", args := [],
        type := TransportType.stdio, postStartInstructions := none,
        healthValidator := none } = true ∧
    healthCheck
      { containerRunning := fun _ => false, httpProbe := fun _ _ => false,
        stdioProbe := fun _ _ => false }
      { name := "svcio", description := "d", image := "img", args := [],
        type := TransportType.stdio, postStartInstructions := none,
        healthValidator := none } = true :=
  ⟨(c2_vacuousHealth_amended
      { containerRunning := fun _ => false, httpProbe := fun _ _ => false,
        stdioProbe := fun _ _ => false }
      { name := "svcio", description := "d", image := "img", args := [],
        type := TransportType.stdio, postStartInstructions := none,
        healthValidator := none } rfl).1,
   (c2_vacuousHealth_amended
      { containerRunning := fun _ => false, httpProbe := fun _ _ => false,
        stdioProbe := fun _ _ => false }
      { name := "svcio", description := "d", image := "img", args := [],
        type := TransportType.stdio, postStartInstructions := none,
        healthValidator := none } rfl).2.1 rfl⟩

/-- C7: for a stdio server definition, `validateStdioServer` returns the
health-validation verdict as its success result, while every state entry
recorded for the server has `online = false` whatever the outcome, and
on success that entry's endpoint is the `command:docker:<image>`
descriptor. -/
theorem c7_validateStdioServer (env : HealthEnv) (server : McpServerConfig)
    (st : McpStateFile) (now : String) (h : server.type = TransportType.stdio) :
    (validateStdioServer env server st now).1 = validateServerHealth env server ∧
    ∀ e ∈ (validateStdioServer env server st now).2.mcps, e.name = server.name →
      e.online = false ∧
      ((validateStdioServer env server st now).1 = true →
        e.endpoint = "command:docker:" ++ server.image) := by
  have hguard : ¬(server.type ≠ TransportType.stdio) := by simp [h]
  have hep : ¬("command:docker:" ++ server.image = "") := by
    intro hc
    have hlen := congrArg String.length hc
    have h15 : ("command:docker:").length = 15 := rfl
    simp [String.length_append, h15] at hlen
  unfold validateStdioServer
  rw [if_neg hguard]
  cases hv : validateServerHealth env server with
  | false =>
    simp only [Bool.false_eq_true, if_false]
    refine ⟨by trivial, ?_⟩
    intro e he hname
    unfold updateAndSaveServerState updateServerStatus at he
    simp only [List.mem_map] at he
    obtain ⟨m, hm, hme⟩ := he
    by_cases hmn : m.name = server.name
    · rw [← hme]
      simp only [if_pos hmn]
      exact ⟨by trivial, fun hfalse => absurd hfalse (by simp)⟩
    · rw [← hme] at hname
      simp only [if_neg hmn] at hname
      exact absurd hname hmn
  | true =>
    simp only [if_true]
    refine ⟨by trivial, ?_⟩
    intro e he hname
    unfold updateAndSaveServerState updateServerStatus at he
    simp only [List.mem_map] at he
    obtain ⟨m, hm, hme⟩ := he
    by_cases hmn : m.name = server.name
    · rw [← hme]
      simp only [if_pos hmn]
      refine ⟨by trivial, fun _ => ?_⟩
      simp [hep]
    · rw [← hme] at hname
      simp only [if_neg hmn] at hname
      exact absurd hname hmn

/-- C7 witness: a concrete stdio server whose probe succeeds reports
success while its state entry records `online = false` with the
descriptor endpoint. -/
theorem c7_validateStdioServer_witness :
    (validateStdioServer ⟨fun _ => false, fun _ _ => false, fun _ _ => true⟩
      ⟨"svcio", "d", "img", [], TransportType.stdio, none,
        some ⟨"tools/list", [], none, none⟩⟩
      ⟨[⟨"svcio", "", none, true, none⟩], some "t"⟩ "T").1
      = validateServerHealth ⟨fun _ => false, fun _ _ => false, fun _ _ => true⟩
        ⟨"svcio", "d", "img", [], TransportType.stdio, none,
          some ⟨"tools/list", [], none, none⟩⟩ ∧
    ∀ e ∈ (validateStdioServer ⟨fun _ => false, fun _ _ => false, fun _ _ => true⟩
      ⟨"svcio", "d", "img", [], TransportType.stdio, none,
        some ⟨"tools/list", [], none, none⟩⟩
      ⟨[⟨"svcio", "", none, true, none⟩], some "t"⟩ "T").2.mcps,
      e.name = "svcio" →
      e.online = false ∧
      ((validateStdioServer ⟨fun _ => false, fun _ _ => false, fun _ _ => true⟩
        ⟨"svcio", "d", "img", [], TransportType.stdio, none,
          some ⟨"tools/list", [], none, none⟩⟩
        ⟨[⟨"svcio", "", none, true, none⟩], some "t"⟩ "T").1 = true →
        e.endpoint = "command:docker:" ++ "img") :=
  c7_validateStdioServer ⟨fun _ => false, fun _ _ => false, fun _ _ => true⟩
    ⟨"svcio", "d", "img", [], TransportType.stdio, none,
      some ⟨"tools/list", [], none, none⟩⟩
    ⟨[⟨"svcio", "", none, true, none⟩], some "t"⟩ "T" rfl

/-- C3 (divergence witness): in the non-forced IDE-config update, with a
configured path, an existing entry that differs from the computed one,
and the user answering yes to the consent prompt, the call writes the
new entry into the IDE config file and returns success — but the
persisted state file it was given comes back identical, with
`manageCursorConfig` of the consenting server still unset: no component
of the repository ever calls the state module's
`updateServerCursorConfigPreference`, so the claimed
`manageCursorConfig = true` recording never happens. -/
theorem c3_consent_not_recorded :
    updateCursorConfigForServer
      { name := "svc", description := "d", image := "img", args := [],
        type := TransportType.http, postStartInstructions := none, healthValidator := none }
      false
      "/home/user/.cursor/mcp.json"
      (Json.obj [("url", Json.str "http://localhost:9001/sse")])
      true
      true
      (some [("mcpServers",
        Json.obj [("svc", Json.obj [("url", Json.str "http://localhost:9000/sse")])])])
      { mcps := [{ name := "svc", endpoint := "http://localhost:9000/sse", envFile := none,
                   online := true, manageCursorConfig := none }], updatedOn := some "t" }
    = (true,
       some [("mcpServers",
         Json.obj [("svc", Json.obj [("url", Json.str "http://localhost:9001/sse")])])],
       { mcps := [{ name := "svc", endpoint := "http://localhost:9000/sse", envFile := none,
                    online := true, manageCursorConfig := none }], updatedOn := some "t" }) ∧
    (getServerState (updateCursorConfigForServer
      { name := "svc", description := "d", image := "img", args := [],
        type := TransportType.http, postStartInstructions := none, healthValidator := none }
      false
      "/home/user/.cursor/mcp.json"
      (Json.obj [("url", Json.str "http://localhost:9001/sse")])
      true
      true
      (some [("mcpServers",
        Json.obj [("svc", Json.obj [("url", Json.str "http://localhost:9000/sse")])])])
      { mcps := [{ name := "svc", endpoint := "http://localhost:9000/sse", envFile := none,
                   online := true, manageCursorConfig := none }],
        updatedOn := some "t" }).2.2 "svc").map McpState.manageCursorConfig
      = some none :=
  ⟨rfl, rfl⟩

end McpMgr
